import Mathlib

/-!
Verification development for the document-to-credit-report analysis
pipeline (backend services: OllamaService, DocumentProcessor,
CreditAnalyzer, and the analyze request handler).

The JavaScript source is shallowly embedded: numbers are modelled as
rationals, external effects (HTTP fetch, JSON.parse of model output,
filesystem reads, PDF decryption) are modelled as explicit oracle
parameters, and thrown exceptions are modelled with Except or with
explicit branch structure mirroring the try/catch nesting of the source.
-/

set_option maxHeartbeats 1000000

namespace CreditPipeline

/-- JavaScript Math.round: rounds half toward positive infinity. -/
def jsRound (q : ℚ) : ℤ := ⌊q + 1/2⌋

/-- JavaScript Math.min on two numbers. -/
def jsMin (a b : ℚ) : ℚ := if a ≤ b then a else b

/-- JavaScript Math.max on two numbers. -/
def jsMax (a b : ℚ) : ℚ := if a ≤ b then b else a

/-- JavaScript truthiness test for an optional string field: an absent
field (undefined) and the empty string are falsy. -/
def jsTruthyStr : Option String → Bool
  | none => false
  | some s => !(s == "")

/-- One element of the extractedData array passed to
generateCreditAnalysis / generateFallbackAnalysis: only the fields the
fallback inspects are modelled (the error field set by the per-document
catch branch in CreditAnalyzer.analyzeDocuments, and the declared
documentType). -/
structure DocResult where
  documentType : String
  error : Option String
  deriving Repr, DecidableEq

/-- The detailedAnalysis sub-score record of a credit report. -/
structure DetailedAnalysis where
  financialHealth : ℚ
  cashFlow : ℚ
  debtRatio : ℚ
  profitability : ℚ
  deriving Repr, DecidableEq

/-- The credit report object produced by generateCreditAnalysis (either
the parsed model output or the deterministic fallback). -/
structure CreditReport where
  score : ℚ
  rating : String
  summary : String
  strengths : List String
  riskFactors : List String
  recommendations : List String
  detailedAnalysis : DetailedAnalysis
  deriving Repr, DecidableEq

/-- The list of core financial-statement document types tested by
generateFallbackAnalysis. -/
def coreFinancialTypes : List String := ["profit-loss", "balance-sheet", "bank-statement"]

/-- successfulAnalyses in generateFallbackAnalysis:
extractedData.filter(doc => !doc.error).length. -/
def successfulAnalyses (extractedData : List DocResult) : ℕ :=
  (extractedData.filter (fun doc => !(jsTruthyStr doc.error))).length

/-- hasFinancialDocs in generateFallbackAnalysis. -/
def hasFinancialDocs (extractedData : List DocResult) : Bool :=
  extractedData.any (fun doc => coreFinancialTypes.contains doc.documentType)

/-- The unrounded clamped score computed by generateFallbackAnalysis:
Math.min(100, Math.max(30, baseScore + analysisBonus)). The JavaScript
source computes with float64; it is embedded over the rationals. -/
def fallbackRawScore (extractedData : List DocResult) : ℚ :=
  let documentCount : ℚ := extractedData.length
  let baseScore : ℚ := if hasFinancialDocs extractedData then 70 else 50
  let analysisBonus : ℚ := ((successfulAnalyses extractedData : ℚ) / documentCount) * 20
  jsMin 100 (jsMax 30 (baseScore + analysisBonus))

/-- OllamaService.generateFallbackAnalysis: the deterministic fallback
credit report. Field by field from the source; note that the rating,
summary wording and detailed sub-scores are computed from the unrounded
score variable, while the returned score field is Math.round of it. -/
def generateFallbackAnalysis (extractedData : List DocResult) : CreditReport :=
  let documentCount := extractedData.length
  let successCount := successfulAnalyses extractedData
  let hasFin := hasFinancialDocs extractedData
  let score := fallbackRawScore extractedData
  { score := (jsRound score : ℚ)
    rating :=
      if score ≥ 80 then "Excellent"
      else if score ≥ 70 then "Good"
      else if score ≥ 60 then "Fair"
      else "Poor"
    summary :=
      "Based on analysis of " ++ toString documentCount ++ " documents (" ++
      toString successCount ++ " successfully processed), the credit profile shows " ++
      (if score ≥ 70 then "strong" else if score ≥ 60 then "moderate" else "limited") ++
      " financial indicators. " ++
      (if hasFin then "Financial statements were provided for comprehensive analysis."
       else "Additional financial statements would improve assessment accuracy.")
    strengths :=
      [ "Complete documentation provided for review",
        "Organized approach to financial record keeping",
        "Transparent submission of required documents",
        if hasFin then "Comprehensive financial statements included"
        else "Willingness to provide documentation" ]
    riskFactors :=
      [ "Limited AI analysis due to technical constraints",
        "Market volatility and economic uncertainty factors",
        if !hasFin then "Missing key financial statements"
        else "Need for more detailed financial trend analysis" ]
    recommendations :=
      [ "Maintain consistent and detailed financial reporting",
        "Implement regular cash flow monitoring and forecasting",
        "Diversify revenue streams to reduce business risk",
        "Build emergency reserves covering 3-6 months of expenses",
        if hasFin then "Continue providing comprehensive financial documentation"
        else "Submit profit & loss statements and balance sheets for better assessment" ]
    detailedAnalysis :=
      { financialHealth := (jsRound (score * (9/10)) : ℚ)
        cashFlow := (jsRound (score * (8/10)) : ℚ)
        debtRatio := (jsRound (score * (85/100)) : ℚ)
        profitability := (jsRound (score * (75/100)) : ℚ) } }

/-! ## Model Gateway: generateCreditAnalysis (aggregation call) -/

/-- The body of a successful HTTP reply from the generation endpoint, as
seen after response.json(): only the response field is consulted. A
missing field is modelled as none (undefined in JavaScript). -/
structure OllamaGenerateBody where
  response : Option String
  deriving Repr, DecidableEq

/-- An HTTP reply from fetch: ok flag, status line, and the JSON body
(none when response.json() itself throws on an unparseable body). -/
structure HttpReply where
  ok : Bool
  jsonBody : Option OllamaGenerateBody
  deriving Repr, DecidableEq

/-- The outcome of the fetch call in generateCreditAnalysis: either the
fetch promise rejects (network error, timeout) or a reply arrives. -/
inductive FetchOutcome where
  | netError (msg : String)
  | reply (r : HttpReply)
  deriving Repr, DecidableEq

/-- The JavaScript value produced by JSON.parse of the cleaned model
output, restricted to the fields the code reads. Absent fields are
none; list-valued fields default to empty lists in the embedding. -/
structure ParsedAnalysis where
  score : Option ℚ
  rating : Option String
  summary : Option String
  strengths : List String
  riskFactors : List String
  recommendations : List String
  detailedAnalysis : DetailedAnalysis
  deriving Repr, DecidableEq

/-- JavaScript truthiness for an optional numeric field: undefined and 0
are falsy. -/
def jsTruthyNum : Option ℚ → Bool
  | none => false
  | some q => !(q == 0)

/-- The structure validation in generateCreditAnalysis: the parsed
result is accepted only if score, rating and summary are all truthy
(if (!analysisResult.score || !analysisResult.rating ||
!analysisResult.summary) throw). -/
def validAnalysisStructure (p : ParsedAnalysis) : Bool :=
  jsTruthyNum p.score && jsTruthyStr p.rating && jsTruthyStr p.summary

/-- The credit report returned on the model path: the parsed object is
returned verbatim (the getD defaults are never exercised when the
structure validation has passed). -/
def parsedReport (p : ParsedAnalysis) : CreditReport :=
  { score := p.score.getD 0
    rating := p.rating.getD ""
    summary := p.summary.getD ""
    strengths := p.strengths
    riskFactors := p.riskFactors
    recommendations := p.recommendations
    detailedAnalysis := p.detailedAnalysis }

/-- Removal of a trailing three-backtick fence plus whitespace,
anchored at the end of the string (the replace with an end-anchored
fence pattern in generateCreditAnalysis). -/
def stripTrailingFence (u : String) : String :=
  if u.trimRight.endsWith "```" then u.trimRight.dropRight 3 else u

/-- The code-fence cleaning of the raw model response in
generateCreditAnalysis: trim, then strip a leading three-backtick-json
fence with following whitespace and a trailing fence, then likewise for
a bare three-backtick fence. Matches the two guarded replace chains of
the source. -/
def cleanModelResponse (s : String) : String :=
  let t := s.trim
  let t := if t.startsWith "```json" then
    stripTrailingFence ((t.drop 7).dropWhile Char.isWhitespace)
  else t
  let t := if t.startsWith "```" then
    stripTrailingFence ((t.drop 3).dropWhile Char.isWhitespace)
  else t
  t

/-- OllamaService.generateCreditAnalysis. The external pieces are
oracle parameters: parse models JSON.parse on the cleaned response
(none when it throws), outcome models the fetch call. The branch
structure mirrors the try/catch nesting of the source: any outer
failure (network, non-ok status, unparseable HTTP body) and any inner
failure (undefined response field, JSON.parse throw, structure
validation throw) falls back to generateFallbackAnalysis; the function
is total, so no exception reaches the caller. -/
def generateCreditAnalysis (parse : String → Option ParsedAnalysis)
    (outcome : FetchOutcome) (extractedData : List DocResult) : CreditReport :=
  match outcome with
  | .netError _ => generateFallbackAnalysis extractedData
  | .reply r =>
    if !r.ok then generateFallbackAnalysis extractedData
    else match r.jsonBody with
    | none => generateFallbackAnalysis extractedData
    | some body =>
      match body.response with
      | none => generateFallbackAnalysis extractedData
      | some raw =>
        match parse (cleanModelResponse raw) with
        | none => generateFallbackAnalysis extractedData
        | some p =>
          if validAnalysisStructure p then parsedReport p
          else generateFallbackAnalysis extractedData

/-! ## Helper lemmas on the numeric primitives -/

lemma jsMin_eq (a b : ℚ) : jsMin a b = min a b := by rw [jsMin, min_def]

lemma jsMax_eq (a b : ℚ) : jsMax a b = max a b := by rw [jsMax, max_def]

lemma jsRound_le_jsRound {a b : ℚ} (h : a ≤ b) : jsRound a ≤ jsRound b :=
  Int.floor_le_floor (by linarith)

lemma le_jsRound_of_le {z : ℤ} {a : ℚ} (h : (z : ℚ) ≤ a) : z ≤ jsRound a :=
  Int.le_floor.mpr (by linarith)

lemma jsRound_sub_le (a : ℚ) : |((jsRound a : ℤ) : ℚ) - a| ≤ 1/2 := by
  rw [abs_le]
  have h1 : ((jsRound a : ℤ) : ℚ) ≤ a + 1/2 := Int.floor_le _
  have h2 : a + 1/2 - 1 < ((jsRound a : ℤ) : ℚ) := Int.sub_one_lt_floor _
  constructor <;> linarith

lemma successfulAnalyses_le_length (extractedData : List DocResult) :
    successfulAnalyses extractedData ≤ extractedData.length :=
  List.length_filter_le _ _

/-- The rating-consistency predicate of the specification: the rating
names exactly the threshold band (80/70/60) that the score lies in. -/
def ratingConsistent (score : ℚ) (rating : String) : Prop :=
  (rating = "Excellent" ↔ 80 ≤ score) ∧
  (rating = "Good" ↔ 70 ≤ score ∧ score < 80) ∧
  (rating = "Fair" ↔ 60 ≤ score ∧ score < 70) ∧
  (rating = "Poor" ↔ score < 60)

/-- The failure cases of the aggregation call, mirroring the claim and
the try/catch structure of generateCreditAnalysis: fetch rejection,
non-ok HTTP status, unparseable HTTP body, missing response field,
JSON.parse failure on the cleaned response, or failed structure
validation. -/
def aggregateCallFails (parse : String → Option ParsedAnalysis) : FetchOutcome → Prop
  | .netError _ => True
  | .reply r =>
    r.ok = false ∨ r.jsonBody = none ∨
    ∃ body, r.jsonBody = some body ∧
      (body.response = none ∨
       ∃ raw, body.response = some raw ∧
         (parse (cleanModelResponse raw) = none ∨
          ∃ p, parse (cleanModelResponse raw) = some p ∧ validAnalysisStructure p = false))

/-- Claim C1: for every aggregation request, if the final
report-generation call fails in any way (network error, non-OK HTTP
status, unparseable JSON response, or a parsed response that fails the
score/rating/summary validation), generateCreditAnalysis returns the
deterministic fallback report instead of raising an error; the function
is total, so no exception from an unusable model output reaches the
caller. -/
theorem generateCreditAnalysis_fallback_on_failure
    (parse : String → Option ParsedAnalysis) (outcome : FetchOutcome)
    (extractedData : List DocResult)
    (h : aggregateCallFails parse outcome) :
    generateCreditAnalysis parse outcome extractedData =
      generateFallbackAnalysis extractedData := by
  cases outcome with
  | netError msg => rfl
  | reply r =>
    rcases h with hok | hbody | ⟨body, hbody, hrest⟩
    · simp [generateCreditAnalysis, hok]
    · simp [generateCreditAnalysis, hbody]
    · rcases hrest with hresp | ⟨raw, hraw, hrest⟩
      · cases hr : r.ok <;> simp [generateCreditAnalysis, hr, hbody, hresp]
      · rcases hrest with hparse | ⟨p, hp, hvalid⟩
        · cases hr : r.ok <;>
            simp [generateCreditAnalysis, hr, hbody, hraw, hparse]
        · cases hr : r.ok <;>
            simp [generateCreditAnalysis, hr, hbody, hraw, hp, hvalid]

/-- Witness for C1: a network error on a concrete request yields
exactly the fallback report. -/
theorem generateCreditAnalysis_fallback_on_failure_witness :
    generateCreditAnalysis (fun _ => none) (.netError "connection refused") [] =
      generateFallbackAnalysis [] :=
  generateCreditAnalysis_fallback_on_failure (fun _ => none)
    (.netError "connection refused") [] trivial

/-! ## Fallback score: formula and bounds (C4, C10, C2) -/

/-- Under well-formed per-document results (error messages, when
present, are non-empty), the truthiness filter of the code coincides with
counting documents without an error field. -/
lemma successfulAnalyses_eq_no_error (extractedData : List DocResult)
    (hwf : ∀ d ∈ extractedData, d.error ≠ some "") :
    successfulAnalyses extractedData =
      (extractedData.filter (fun d => d.error = none)).length := by
  unfold successfulAnalyses
  congr 1
  apply List.filter_congr
  intro d hd
  cases he : d.error with
  | none => simp [jsTruthyStr]
  | some s =>
    have hne : s ≠ "" := by
      intro hs
      exact hwf d hd (by rw [he, hs])
    simp [jsTruthyStr, he, hne]

lemma fallbackRawScore_nonneg_bonus (extractedData : List DocResult)
    (hne : extractedData ≠ []) :
    0 ≤ ((successfulAnalyses extractedData : ℚ) / (extractedData.length : ℚ)) * 20 ∧
    ((successfulAnalyses extractedData : ℚ) / (extractedData.length : ℚ)) * 20 ≤ 20 := by
  have hlen : 0 < (extractedData.length : ℚ) := by
    have := List.length_pos.mpr hne
    exact_mod_cast this
  have hle : (successfulAnalyses extractedData : ℚ) ≤ (extractedData.length : ℚ) := by
    exact_mod_cast successfulAnalyses_le_length extractedData
  constructor
  · positivity
  · have hq : (successfulAnalyses extractedData : ℚ) / (extractedData.length : ℚ) ≤ 1 :=
      (div_le_one hlen).mpr hle
    linarith

/-- With at least one document, the clamp in fallbackRawScore is
inactive: the raw score is exactly baseScore + analysisBonus, which
lies in [50, 90]. -/
lemma fallbackRawScore_eq_base_add_bonus (extractedData : List DocResult)
    (hne : extractedData ≠ []) :
    fallbackRawScore extractedData =
      (if hasFinancialDocs extractedData then 70 else 50) +
        ((successfulAnalyses extractedData : ℚ) / (extractedData.length : ℚ)) * 20 ∧
    50 ≤ fallbackRawScore extractedData ∧ fallbackRawScore extractedData ≤ 90 := by
  obtain ⟨hb0, hb20⟩ := fallbackRawScore_nonneg_bonus extractedData hne
  set bonus := ((successfulAnalyses extractedData : ℚ) / (extractedData.length : ℚ)) * 20
    with hbonus
  have hbase : (50 : ℚ) ≤ (if hasFinancialDocs extractedData then (70 : ℚ) else 50) ∧
      (if hasFinancialDocs extractedData then (70 : ℚ) else 50) ≤ 70 := by
    split <;> norm_num
  have hx1 : (50 : ℚ) ≤ (if hasFinancialDocs extractedData then (70 : ℚ) else 50) + bonus := by
    linarith [hbase.1]
  have hx2 : (if hasFinancialDocs extractedData then (70 : ℚ) else 50) + bonus ≤ 90 := by
    linarith [hbase.2]
  have hraw : fallbackRawScore extractedData =
      (if hasFinancialDocs extractedData then (70 : ℚ) else 50) + bonus := by
    unfold fallbackRawScore
    rw [jsMin_eq, jsMax_eq]
    rw [max_eq_right (by linarith), min_eq_right (by linarith)]
  exact ⟨hraw, by rw [hraw]; exact hx1, by rw [hraw]; exact hx2⟩

/-- Claim C4: for every non-empty, well-formed list of per-document
results, the fallback score equals round(clamp(baseScore + bonus, 30,
100)), with baseScore 70 when a core financial-statement type is
present and 50 otherwise and bonus the successful fraction times 20;
the resulting score is an integer in [30, 100]. -/
theorem fallback_score_formula (extractedData : List DocResult)
    (hne : extractedData ≠ [])
    (hwf : ∀ d ∈ extractedData, d.error ≠ some "") :
    (generateFallbackAnalysis extractedData).score =
      ((jsRound (jsMin 100 (jsMax 30
        ((if hasFinancialDocs extractedData then 70 else 50) +
          (((extractedData.filter (fun d => d.error = none)).length : ℚ) /
            (extractedData.length : ℚ)) * 20))) : ℤ) : ℚ) ∧
    ∃ k : ℤ, (generateFallbackAnalysis extractedData).score = (k : ℚ) ∧
      30 ≤ k ∧ k ≤ 100 := by
  have hcount := successfulAnalyses_eq_no_error extractedData hwf
  have hscore : (generateFallbackAnalysis extractedData).score =
      ((jsRound (fallbackRawScore extractedData) : ℤ) : ℚ) := rfl
  obtain ⟨hraw, h50, h90⟩ := fallbackRawScore_eq_base_add_bonus extractedData hne
  constructor
  · rw [hscore]
    congr 2
    rw [← hcount]
    unfold fallbackRawScore
    rfl
  · refine ⟨jsRound (fallbackRawScore extractedData), hscore, ?_, ?_⟩
    · exact le_jsRound_of_le (by push_cast; linarith)
    · have h1 : jsRound (fallbackRawScore extractedData) ≤ jsRound 100 :=
        jsRound_le_jsRound (by linarith)
      have h2 : jsRound (100 : ℚ) = 100 := by norm_num [jsRound]
      omega

/-- Concrete sample input: a single successfully analyzed
profit-and-loss document. -/
def sampleDoc : DocResult := ⟨"profit-loss", none⟩

/-- Witness for C4: on a single successful profit-and-loss document the
fallback score is an integer in [30, 100]. -/
theorem fallback_score_formula_witness :
    ∃ k : ℤ, (generateFallbackAnalysis [sampleDoc]).score = (k : ℚ) ∧
      30 ≤ k ∧ k ≤ 100 :=
  (fallback_score_formula [sampleDoc] (by simp) (by simp [sampleDoc])).2

/-- Claim C10: for every non-empty list of per-document results the
fallback score lies in the tighter range [50, 90]: the clamp at 30/100
is never active (the raw score is exactly baseScore + bonus). -/
theorem fallback_score_in_50_90 (extractedData : List DocResult)
    (hne : extractedData ≠ []) :
    fallbackRawScore extractedData =
      (if hasFinancialDocs extractedData then 70 else 50) +
        ((successfulAnalyses extractedData : ℚ) / (extractedData.length : ℚ)) * 20 ∧
    50 ≤ (generateFallbackAnalysis extractedData).score ∧
    (generateFallbackAnalysis extractedData).score ≤ 90 := by
  obtain ⟨hraw, h50, h90⟩ := fallbackRawScore_eq_base_add_bonus extractedData hne
  have hscore : (generateFallbackAnalysis extractedData).score =
      ((jsRound (fallbackRawScore extractedData) : ℤ) : ℚ) := rfl
  refine ⟨hraw, ?_, ?_⟩
  · rw [hscore]
    have : (50 : ℤ) ≤ jsRound (fallbackRawScore extractedData) :=
      le_jsRound_of_le (by push_cast; linarith)
    exact_mod_cast this
  · rw [hscore]
    have h1 : jsRound (fallbackRawScore extractedData) ≤ jsRound 90 :=
      jsRound_le_jsRound (by linarith)
    have h2 : jsRound (90 : ℚ) = 90 := by norm_num [jsRound]
    have : jsRound (fallbackRawScore extractedData) ≤ 90 := by omega
    exact_mod_cast this

/-- Witness for C10: the single-document sample has fallback score
inside [50, 90]. -/
theorem fallback_score_in_50_90_witness :
    50 ≤ (generateFallbackAnalysis [sampleDoc]).score ∧
    (generateFallbackAnalysis [sampleDoc]).score ≤ 90 :=
  (fallback_score_in_50_90 [sampleDoc] (by simp)).2

/-! ## Rating consistency (C2) -/

/-- The threshold chain of the source (score >= 80 ? Excellent : score
>= 70 ? Good : score >= 60 ? Fair : Poor) satisfies the
rating-consistency predicate at the value it is applied to. -/
lemma ratingConsistent_of_chain (s : ℚ) :
    ratingConsistent s
      (if s ≥ 80 then "Excellent" else if s ≥ 70 then "Good"
       else if s ≥ 60 then "Fair" else "Poor") := by
  unfold ratingConsistent
  split_ifs with h80 h70 h60
  · exact ⟨⟨fun _ => h80, fun _ => rfl⟩,
      ⟨fun h => absurd h (by decide), fun h => absurd h.2 (not_lt.mpr h80)⟩,
      ⟨fun h => absurd h (by decide), fun h => absurd h.2 (not_lt.mpr (by linarith))⟩,
      ⟨fun h => absurd h (by decide), fun h => absurd h (not_lt.mpr (by linarith))⟩⟩
  · exact ⟨⟨fun h => absurd h (by decide), fun h => absurd h h80⟩,
      ⟨fun _ => ⟨h70, not_le.mp h80⟩, fun _ => rfl⟩,
      ⟨fun h => absurd h (by decide), fun h => absurd h.2 (not_lt.mpr h70)⟩,
      ⟨fun h => absurd h (by decide), fun h => absurd h (not_lt.mpr (by linarith))⟩⟩
  · exact ⟨⟨fun h => absurd h (by decide), fun h => absurd h h80⟩,
      ⟨fun h => absurd h (by decide), fun h => absurd h.1 h70⟩,
      ⟨fun _ => ⟨h60, not_le.mp h70⟩, fun _ => rfl⟩,
      ⟨fun h => absurd h (by decide), fun h => absurd h (not_lt.mpr h60)⟩⟩
  · exact ⟨⟨fun h => absurd h (by decide), fun h => absurd h h80⟩,
      ⟨fun h => absurd h (by decide), fun h => absurd h.1 h70⟩,
      ⟨fun h => absurd h (by decide), fun h => absurd h.1 h60⟩,
      ⟨fun _ => not_le.mp h60, fun _ => rfl⟩⟩

/-- Claim C2 as amended: on the fallback path the rating is consistent
with the score thresholds applied to the unrounded clamped score, and
the reported score field is the rounding of that value, within 1/2 of
it. (The original claim, stated for the reported integer score and for
both pipeline paths, is refuted by the counterexample: rounding can
cross a threshold, and the model path does not enforce consistency.)
The non-emptiness hypothesis keeps the model faithful: on an empty
array the source divides by zero and produces NaN. -/
theorem fallback_rating_consistent_with_raw_score
    (extractedData : List DocResult) (hne : extractedData ≠ []) :
    ratingConsistent (fallbackRawScore extractedData)
      (generateFallbackAnalysis extractedData).rating ∧
    (generateFallbackAnalysis extractedData).score =
      ((jsRound (fallbackRawScore extractedData) : ℤ) : ℚ) ∧
    |(generateFallbackAnalysis extractedData).score -
      fallbackRawScore extractedData| ≤ 1/2 := by
  have _ := hne
  have hr : (generateFallbackAnalysis extractedData).rating =
      (if fallbackRawScore extractedData ≥ 80 then "Excellent"
       else if fallbackRawScore extractedData ≥ 70 then "Good"
       else if fallbackRawScore extractedData ≥ 60 then "Fair" else "Poor") := rfl
  refine ⟨hr ▸ ratingConsistent_of_chain _, rfl, ?_⟩
  exact jsRound_sub_le (fallbackRawScore extractedData)

/-- Witness for the amended C2: on the single-document sample the
fallback rating is consistent with the unrounded score. -/
theorem fallback_rating_consistent_witness :
    ratingConsistent (fallbackRawScore [sampleDoc])
      (generateFallbackAnalysis [sampleDoc]).rating :=
  (fallback_rating_consistent_with_raw_score [sampleDoc] (by simp)).1

/-- A parsed model response that passes the structure validation while
carrying an inconsistent score/rating pair. -/
def cxParsed : ParsedAnalysis :=
  ⟨some 90, some "Poor", some "ok", [], [], [], ⟨0, 0, 0, 0⟩⟩

/-- A JSON.parse oracle returning the inconsistent parsed response. -/
def cxParse : String → Option ParsedAnalysis := fun _ => some cxParsed

/-- A successful HTTP reply whose body carries a response field. -/
def cxOutcome : FetchOutcome := .reply ⟨true, some ⟨some "raw model output"⟩⟩

/-- Twenty-one documents, ten of them successfully analyzed, at least
one of core financial-statement type: the unrounded fallback score is
1670/21, strictly below 80, but it rounds to a reported score of 80. -/
def sampleDocs21 : List DocResult :=
  sampleDoc :: List.replicate 9 (⟨"other", none⟩ : DocResult) ++
    List.replicate 11 (⟨"other", some "analysis failed"⟩ : DocResult)

/-- Counterexample to C2 as stated: the model path returns a validated
report with score 90 and rating Poor unchanged, and the fallback path
on the 21-document sample reports integer score 80 paired with rating
Good; in both reports the rating contradicts the threshold predicate
applied to the reported score. -/
theorem rating_consistency_counterexample :
    (generateCreditAnalysis cxParse cxOutcome [sampleDoc]).score = 90 ∧
    (generateCreditAnalysis cxParse cxOutcome [sampleDoc]).rating = "Poor" ∧
    ¬ ratingConsistent (generateCreditAnalysis cxParse cxOutcome [sampleDoc]).score
        (generateCreditAnalysis cxParse cxOutcome [sampleDoc]).rating ∧
    (generateFallbackAnalysis sampleDocs21).score = 80 ∧
    (generateFallbackAnalysis sampleDocs21).rating = "Good" ∧
    ¬ ratingConsistent (generateFallbackAnalysis sampleDocs21).score
        (generateFallbackAnalysis sampleDocs21).rating := by
  have hmodel : generateCreditAnalysis cxParse cxOutcome [sampleDoc] =
      parsedReport cxParsed := by
    simp [generateCreditAnalysis, cxParse, cxOutcome, validAnalysisStructure,
      cxParsed, jsTruthyNum, jsTruthyStr]
  have hscorem : (generateCreditAnalysis cxParse cxOutcome [sampleDoc]).score = 90 := by
    rw [hmodel]; rfl
  have hratingm : (generateCreditAnalysis cxParse cxOutcome [sampleDoc]).rating = "Poor" := by
    rw [hmodel]; rfl
  have hsucc : successfulAnalyses sampleDocs21 = 10 := by decide
  have hfin : hasFinancialDocs sampleDocs21 = true := by decide
  have hlen : sampleDocs21.length = 21 := by decide
  have hraw : fallbackRawScore sampleDocs21 = 1670/21 := by
    unfold fallbackRawScore
    rw [hsucc, hfin, hlen]
    norm_num [jsMin, jsMax]
  have hscore : (generateFallbackAnalysis sampleDocs21).score =
      ((jsRound (fallbackRawScore sampleDocs21) : ℤ) : ℚ) := rfl
  have hscoref : (generateFallbackAnalysis sampleDocs21).score = 80 := by
    rw [hscore, hraw]
    norm_num [jsRound]
  have hrf : (generateFallbackAnalysis sampleDocs21).rating =
      (if fallbackRawScore sampleDocs21 ≥ 80 then "Excellent"
       else if fallbackRawScore sampleDocs21 ≥ 70 then "Good"
       else if fallbackRawScore sampleDocs21 ≥ 60 then "Fair" else "Poor") := rfl
  have hratingf : (generateFallbackAnalysis sampleDocs21).rating = "Good" := by
    rw [hrf, hraw]
    norm_num
  refine ⟨hscorem, hratingm, ?_, hscoref, hratingf, ?_⟩
  · rw [hscorem, hratingm]
    intro h
    exact absurd (h.1.mpr (by norm_num)) (by decide)
  · rw [hscoref, hratingf]
    intro h
    exact absurd (h.1.mpr (by norm_num)) (by decide)

/-! ## Model Gateway: analyzeImage retry loop (C5) -/

/-- The retry configuration of OllamaService: maxRetries = 3 extra
attempts, retryDelay = 2000 milliseconds. -/
def maxRetries : ℕ := 3

/-- The fixed inter-retry delay in milliseconds. -/
def retryDelay : ℕ := 2000

/-- Observable trace of one analyzeImage invocation: the returned or
thrown value, the number of attempts performed, and the delays waited
between consecutive attempts, in order. -/
structure InferTrace where
  result : Except String String
  attemptsUsed : ℕ
  delays : List ℕ
  deriving Repr

/-- OllamaService.analyzeImage. One attempt (file read, fetch, status
check, json body, non-empty response check) is an oracle from the
attempt index to success or a thrown error message; on failure with
retryCount < maxRetries the function waits retryDelay and recurses with
retryCount + 1, otherwise it throws the InferenceFailure message built
from maxRetries + 1 and the last underlying error. -/
def analyzeImage (attempt : ℕ → Except String String)
    (mr delay : ℕ) (retryCount : ℕ) : InferTrace :=
  match attempt retryCount with
  | .ok response => ⟨.ok response, 1, []⟩
  | .error msg =>
    if h : retryCount < mr then
      let rest := analyzeImage attempt mr delay (retryCount + 1)
      ⟨rest.result, rest.attemptsUsed + 1, delay :: rest.delays⟩
    else
      ⟨.error ("Failed to analyze image after " ++ toString (mr + 1) ++
        " attempts: " ++ msg), 1, []⟩
  termination_by mr + 1 - retryCount
  decreasing_by omega

lemma analyzeImage_of_ok {attempt : ℕ → Except String String} {mr delay rc : ℕ}
    {response : String} (h : attempt rc = .ok response) :
    analyzeImage attempt mr delay rc = ⟨.ok response, 1, []⟩ := by
  rw [analyzeImage, h]

lemma analyzeImage_of_error_lt {attempt : ℕ → Except String String} {mr delay rc : ℕ}
    {msg : String} (h : attempt rc = .error msg) (hlt : rc < mr) :
    analyzeImage attempt mr delay rc =
      ⟨(analyzeImage attempt mr delay (rc + 1)).result,
        (analyzeImage attempt mr delay (rc + 1)).attemptsUsed + 1,
        delay :: (analyzeImage attempt mr delay (rc + 1)).delays⟩ := by
  rw [analyzeImage, h]
  simp [hlt]

lemma analyzeImage_of_error_ge {attempt : ℕ → Except String String} {mr delay rc : ℕ}
    {msg : String} (h : attempt rc = .error msg) (hge : ¬ rc < mr) :
    analyzeImage attempt mr delay rc =
      ⟨.error ("Failed to analyze image after " ++ toString (mr + 1) ++
        " attempts: " ++ msg), 1, []⟩ := by
  rw [analyzeImage, h]
  simp [hge]

lemma analyzeImage_attempts_pos (attempt : ℕ → Except String String)
    (mr delay rc : ℕ) : 1 ≤ (analyzeImage attempt mr delay rc).attemptsUsed := by
  cases hA : attempt rc with
  | ok response =>
    rw [analyzeImage_of_ok hA]
  | error msg =>
    by_cases h : rc < mr
    · rw [analyzeImage_of_error_lt hA h]
      show 1 ≤ (analyzeImage attempt mr delay (rc + 1)).attemptsUsed + 1
      omega
    · rw [analyzeImage_of_error_ge hA h]

lemma analyzeImage_attempts_le (attempt : ℕ → Except String String)
    (mr delay : ℕ) : ∀ retryCount, retryCount ≤ mr →
    (analyzeImage attempt mr delay retryCount).attemptsUsed ≤ mr + 1 - retryCount := by
  suffices H : ∀ n retryCount, mr + 1 - retryCount = n → retryCount ≤ mr →
      (analyzeImage attempt mr delay retryCount).attemptsUsed ≤ mr + 1 - retryCount by
    intro rc hrc
    exact H (mr + 1 - rc) rc rfl hrc
  intro n
  induction n using Nat.strong_induction_on with
  | _ n ih =>
    intro retryCount hn hle
    cases hA : attempt retryCount with
    | ok response =>
      rw [analyzeImage_of_ok hA]
      show 1 ≤ mr + 1 - retryCount
      omega
    | error msg =>
      by_cases h : retryCount < mr
      · rw [analyzeImage_of_error_lt hA h]
        have h2 : (analyzeImage attempt mr delay (retryCount + 1)).attemptsUsed ≤
            mr + 1 - (retryCount + 1) :=
          ih (mr + 1 - (retryCount + 1)) (by omega) (retryCount + 1) rfl (by omega)
        show (analyzeImage attempt mr delay (retryCount + 1)).attemptsUsed + 1 ≤
          mr + 1 - retryCount
        omega
      · rw [analyzeImage_of_error_ge hA h]
        show 1 ≤ mr + 1 - retryCount
        omega

lemma analyzeImage_all_fail (attempt : ℕ → Except String String)
    (mr delay : ℕ) : ∀ retryCount, retryCount ≤ mr →
    (∀ i, retryCount ≤ i → i ≤ mr → ∃ m, attempt i = .error m) →
    ∃ m, attempt mr = .error m ∧
      analyzeImage attempt mr delay retryCount =
        ⟨.error ("Failed to analyze image after " ++ toString (mr + 1) ++
          " attempts: " ++ m), mr + 1 - retryCount, List.replicate (mr - retryCount) delay⟩ := by
  suffices H : ∀ n retryCount, mr + 1 - retryCount = n → retryCount ≤ mr →
      (∀ i, retryCount ≤ i → i ≤ mr → ∃ m, attempt i = .error m) →
      ∃ m, attempt mr = .error m ∧
        analyzeImage attempt mr delay retryCount =
          ⟨.error ("Failed to analyze image after " ++ toString (mr + 1) ++
            " attempts: " ++ m), mr + 1 - retryCount, List.replicate (mr - retryCount) delay⟩ by
    intro rc hrc hall
    exact H (mr + 1 - rc) rc rfl hrc hall
  intro n
  induction n using Nat.strong_induction_on with
  | _ n ih =>
    intro retryCount hn hle hall
    obtain ⟨m0, hm0⟩ := hall retryCount le_rfl hle
    by_cases h : retryCount < mr
    · obtain ⟨m, hm, hrec⟩ := ih (mr + 1 - (retryCount + 1)) (by omega) (retryCount + 1)
        rfl (by omega) (fun i h1 h2 => hall i (by omega) h2)
      refine ⟨m, hm, ?_⟩
      rw [analyzeImage_of_error_lt hm0 h, hrec]
      simp only [InferTrace.mk.injEq, true_and, and_true, eq_self_iff_true]
      refine ⟨by omega, ?_⟩
      have h2 : mr - retryCount = (mr - (retryCount + 1)) + 1 := by omega
      rw [h2, List.replicate_succ]
    · have heq : retryCount = mr := by omega
      subst heq
      refine ⟨m0, hm0, ?_⟩
      rw [analyzeImage_of_error_ge hm0 h]
      simp only [InferTrace.mk.injEq, true_and, and_true, eq_self_iff_true]
      refine ⟨by omega, ?_⟩
      have h2 : retryCount - retryCount = 0 := by omega
      rw [h2]
      rfl

/-- Claim C5: analyzeImage performs at most maxRetries + 1 = 4 total
attempts, every inter-attempt delay is the fixed 2000 ms with no
backoff growth, and when all four attempts fail it surfaces the
InferenceFailure message carrying the last underlying error. -/
theorem analyzeImage_retry_bound (attempt : ℕ → Except String String)
    (hfail : ∀ i, i ≤ maxRetries → ∃ m, attempt i = .error m) :
    (analyzeImage attempt maxRetries retryDelay 0).attemptsUsed ≤ maxRetries + 1 ∧
    (∀ attempt2 : ℕ → Except String String,
      (analyzeImage attempt2 maxRetries retryDelay 0).delays =
        List.replicate ((analyzeImage attempt2 maxRetries retryDelay 0).attemptsUsed - 1)
          retryDelay) ∧
    ∃ m, attempt maxRetries = .error m ∧
      (analyzeImage attempt maxRetries retryDelay 0).result =
        .error ("Failed to analyze image after 4 attempts: " ++ m) ∧
      (analyzeImage attempt maxRetries retryDelay 0).attemptsUsed = maxRetries + 1 := by
  refine ⟨?_, ?_, ?_⟩
  · have := analyzeImage_attempts_le attempt maxRetries retryDelay 0 (by simp [maxRetries])
    omega
  · intro attempt2
    suffices H : ∀ n rc, maxRetries + 1 - rc = n →
        (analyzeImage attempt2 maxRetries retryDelay rc).delays =
          List.replicate ((analyzeImage attempt2 maxRetries retryDelay rc).attemptsUsed - 1)
            retryDelay by
      exact H (maxRetries + 1) 0 rfl
    intro n
    induction n using Nat.strong_induction_on with
    | _ n ih =>
      intro rc hn
      cases hA : attempt2 rc with
      | ok response =>
        rw [analyzeImage_of_ok hA]
        rfl
      | error msg =>
        by_cases h : rc < maxRetries
        · rw [analyzeImage_of_error_lt hA h]
          have hrec := ih (maxRetries + 1 - (rc + 1)) (by omega) (rc + 1) rfl
          have h2 : 1 ≤ (analyzeImage attempt2 maxRetries retryDelay (rc + 1)).attemptsUsed :=
            analyzeImage_attempts_pos attempt2 maxRetries retryDelay (rc + 1)
          show retryDelay :: (analyzeImage attempt2 maxRetries retryDelay (rc + 1)).delays =
            List.replicate
              ((analyzeImage attempt2 maxRetries retryDelay (rc + 1)).attemptsUsed + 1 - 1)
              retryDelay
          have h3 : (analyzeImage attempt2 maxRetries retryDelay (rc + 1)).attemptsUsed + 1 - 1 =
              ((analyzeImage attempt2 maxRetries retryDelay (rc + 1)).attemptsUsed - 1) + 1 := by
            omega
          rw [hrec, h3, List.replicate_succ]
        · rw [analyzeImage_of_error_ge hA h]
          rfl
  · obtain ⟨m, hm, hrec⟩ := analyzeImage_all_fail attempt maxRetries retryDelay 0
      (by simp [maxRetries]) (fun i _ h2 => hfail i h2)
    refine ⟨m, hm, ?_, ?_⟩
    · rw [hrec]
      rfl
    · rw [hrec]
      rfl

/-- Witness for C5: an oracle that always fails yields the fixed
InferenceFailure message after exactly four attempts. -/
theorem analyzeImage_retry_bound_witness :
    ∃ m, (fun _ => (.error "socket hang up" : Except String String)) maxRetries = .error m ∧
      (analyzeImage (fun _ => .error "socket hang up") maxRetries retryDelay 0).result =
        .error ("Failed to analyze image after 4 attempts: " ++ m) ∧
      (analyzeImage (fun _ => .error "socket hang up") maxRetries retryDelay 0).attemptsUsed =
        maxRetries + 1 :=
  (analyzeImage_retry_bound (fun _ => .error "socket hang up")
    (fun _ _ => ⟨"socket hang up", rfl⟩)).2.2

/-! ## Batch inference (C8) and page combination (C7) -/

/-- One element of the results array built by analyzeMultipleImages:
page index (1-based), source image path, and either an analysis
narrative (success) or an error message (failure). -/
structure PageResult where
  page : ℕ
  imagePath : String
  analysis : Option String
  error : Option String
  success : Bool
  deriving Repr, DecidableEq

/-- The page-index/page-count suffix appended to the prompt for page
i (0-based) of n in analyzeMultipleImages. -/
def pagePromptSuffix (i n : ℕ) : String :=
  "\n\nThis is page " ++ toString (i + 1) ++ " of " ++ toString n ++
  ". Please analyze this page and extract relevant financial information. Be specific and detailed in your analysis."

/-- The result record analyzeMultipleImages pushes for page i (0-based)
of imagePath: on success an analysis and no error, on failure an error
and no analysis. -/
def pageOutcome (attempt : String → String → ℕ → Except String String)
    (n : ℕ) (prompt : String) (i : ℕ) (imagePath : String) : PageResult :=
  match (analyzeImage (attempt imagePath (prompt ++ pagePromptSuffix i n))
      maxRetries retryDelay 0).result with
  | .ok result => ⟨i + 1, imagePath, some result, none, true⟩
  | .error msg => ⟨i + 1, imagePath, none, some msg, false⟩

/-- OllamaService.analyzeMultipleImages: invokes analyzeImage once per
image, sequentially in input order, with the page-suffixed prompt; each
iteration catches its own failure, so exhausted retries on one page do
not abort the remaining pages. The attempt oracle takes the image path,
the full prompt and the attempt index. -/
def analyzeMultipleImages (attempt : String → String → ℕ → Except String String)
    (imagePaths : List String) (prompt : String) : List PageResult :=
  imagePaths.enum.map (fun pair =>
    pageOutcome attempt imagePaths.length prompt pair.1 pair.2)

/-- Claim C8: analyzeMultipleImages returns exactly one result per
image; the result at position i (0-based) is the record for page i + 1
of the i-th image path, computed by analyzeImage on the prompt with the
page-index/page-count suffix, independently of every other page; and
each result carries either an analysis (success) or an error (failure),
never both. -/
theorem analyzeMultipleImages_spec
    (attempt : String → String → ℕ → Except String String)
    (imagePaths : List String) (prompt : String) :
    (analyzeMultipleImages attempt imagePaths prompt).length = imagePaths.length ∧
    (∀ i, i < imagePaths.length →
      (analyzeMultipleImages attempt imagePaths prompt).getD i ⟨0, "", none, none, false⟩ =
        pageOutcome attempt imagePaths.length prompt i (imagePaths.getD i "")) ∧
    (∀ i, i < imagePaths.length →
      (((analyzeMultipleImages attempt imagePaths prompt).getD i
          ⟨0, "", none, none, false⟩).page = i + 1) ∧
      ((((analyzeMultipleImages attempt imagePaths prompt).getD i
          ⟨0, "", none, none, false⟩).analysis ≠ none ∧
        ((analyzeMultipleImages attempt imagePaths prompt).getD i
          ⟨0, "", none, none, false⟩).error = none ∧
        ((analyzeMultipleImages attempt imagePaths prompt).getD i
          ⟨0, "", none, none, false⟩).success = true) ∨
       (((analyzeMultipleImages attempt imagePaths prompt).getD i
          ⟨0, "", none, none, false⟩).analysis = none ∧
        ((analyzeMultipleImages attempt imagePaths prompt).getD i
          ⟨0, "", none, none, false⟩).error ≠ none ∧
        ((analyzeMultipleImages attempt imagePaths prompt).getD i
          ⟨0, "", none, none, false⟩).success = false))) := by
  have hlen : (analyzeMultipleImages attempt imagePaths prompt).length =
      imagePaths.length := by
    simp [analyzeMultipleImages]
  have hget : ∀ i, i < imagePaths.length →
      (analyzeMultipleImages attempt imagePaths prompt).getD i ⟨0, "", none, none, false⟩ =
        pageOutcome attempt imagePaths.length prompt i (imagePaths.getD i "") := by
    intro i hi
    have h1 : (analyzeMultipleImages attempt imagePaths prompt)[i]? =
        some (pageOutcome attempt imagePaths.length prompt i imagePaths[i]) := by
      simp [analyzeMultipleImages, List.getElem?_map, List.getElem?_enum,
        List.getElem?_eq_getElem hi]
    rw [List.getD_eq_getElem?_getD, h1, List.getD_eq_getElem _ _ hi]
    rfl
  refine ⟨hlen, hget, ?_⟩
  intro i hi
  rw [hget i hi]
  unfold pageOutcome
  cases (analyzeImage (attempt (imagePaths.getD i "")
      (prompt ++ pagePromptSuffix i imagePaths.length)) maxRetries retryDelay 0).result with
  | ok result => exact ⟨rfl, Or.inl ⟨by simp, rfl, rfl⟩⟩
  | error msg => exact ⟨rfl, Or.inr ⟨rfl, by simp, rfl⟩⟩

/-- Witness for C8: a two-image batch whose first page exhausts retries
and whose second page succeeds still records both pages, in order. -/
theorem analyzeMultipleImages_spec_witness :
    (analyzeMultipleImages
        (fun path _ _ => if path = "p1.png" then .error "timeout" else .ok "narrative")
        ["p1.png", "p2.png"] "Analyze this financial document").length = 2 ∧
    ((analyzeMultipleImages
        (fun path _ _ => if path = "p1.png" then .error "timeout" else .ok "narrative")
        ["p1.png", "p2.png"] "Analyze this financial document").getD 1
        ⟨0, "", none, none, false⟩).page = 2 :=
  ⟨(analyzeMultipleImages_spec
      (fun path _ _ => if path = "p1.png" then .error "timeout" else .ok "narrative")
      ["p1.png", "p2.png"] "Analyze this financial document").1,
   ((analyzeMultipleImages_spec
      (fun path _ _ => if path = "p1.png" then .error "timeout" else .ok "narrative")
      ["p1.png", "p2.png"] "Analyze this financial document").2.2 1 (by decide)).1⟩

/-- JavaScript template interpolation of a possibly-undefined value. -/
def jsShowOptString : Option String → String
  | some s => s
  | none => "undefined"

/-- JavaScript Array.prototype.join with a separator. -/
def joinSep (sep : String) : List String → String
  | [] => ""
  | [s] => s
  | s :: rest => s ++ sep ++ joinSep sep rest

/-- The page label built for one successful page in
combinePageAnalyses. -/
def pageLabel (a : PageResult) : String :=
  "Page " ++ toString a.page ++ ": " ++ jsShowOptString a.analysis

/-- CreditAnalyzer.combinePageAnalyses: keeps the results whose error
field is falsy, returns the explicit failure message when none remain,
and otherwise joins the page labels with blank lines. -/
def combinePageAnalyses (pageAnalyses : List PageResult) : String :=
  let validAnalyses := pageAnalyses.filter (fun a => !(jsTruthyStr a.error))
  if validAnalyses.length = 0 then
    "Failed to extract information from document pages"
  else
    joinSep "\n\n" (validAnalyses.map pageLabel)

lemma append_ne_empty_left {a : String} (b : String) (h : a ≠ "") : a ++ b ≠ "" := by
  intro hc
  have h2 : (a ++ b).length = 0 := by rw [hc]; rfl
  rw [String.length_append] at h2
  have h3 : a.length = 0 := by omega
  have h4 : a = "" := by
    cases a with
    | mk data =>
      cases data with
      | nil => rfl
      | cons c cs => simp [String.length] at h3
  exact h h4

lemma pageLabel_ne_empty (a : PageResult) : pageLabel a ≠ "" := by
  unfold pageLabel
  rw [String.append_assoc, String.append_assoc]
  exact append_ne_empty_left _ (by decide)

lemma joinSep_cons_ne_empty (sep s : String) (rest : List String) (h : s ≠ "") :
    joinSep sep (s :: rest) ≠ "" := by
  cases rest with
  | nil => simpa [joinSep]
  | cons t ts =>
    show s ++ sep ++ joinSep sep (t :: ts) ≠ ""
    rw [String.append_assoc]
    exact append_ne_empty_left _ h

/-- Claim C7: combinePageAnalyses joins the labels of the pages whose
error field is absent, in list (page) order, skipping failed pages;
when every page failed it returns the explicit failure message, and
when at least one page succeeded the combined narrative is non-empty. -/
theorem combinePageAnalyses_spec (pageAnalyses : List PageResult) :
    ((∃ r ∈ pageAnalyses, r.error = none) →
      combinePageAnalyses pageAnalyses =
        joinSep "\n\n"
          ((pageAnalyses.filter (fun a => !(jsTruthyStr a.error))).map pageLabel) ∧
      combinePageAnalyses pageAnalyses ≠ "") ∧
    ((∀ r ∈ pageAnalyses, jsTruthyStr r.error = true) →
      combinePageAnalyses pageAnalyses =
        "Failed to extract information from document pages") := by
  constructor
  · rintro ⟨r, hr, herr⟩
    have hmem : r ∈ pageAnalyses.filter (fun a => !(jsTruthyStr a.error)) :=
      List.mem_filter.mpr ⟨hr, by simp [jsTruthyStr, herr]⟩
    have hne : pageAnalyses.filter (fun a => !(jsTruthyStr a.error)) ≠ [] :=
      List.ne_nil_of_mem hmem
    have hlen : (pageAnalyses.filter (fun a => !(jsTruthyStr a.error))).length ≠ 0 := by
      simpa [List.length_eq_zero] using hne
    constructor
    · unfold combinePageAnalyses
      simp [hlen]
    · unfold combinePageAnalyses
      simp only [hlen, if_neg]
      obtain ⟨s, rest, hcons⟩ :=
        List.exists_cons_of_ne_nil hne
      rw [hcons]
      simp only [List.map_cons]
      exact joinSep_cons_ne_empty _ _ _ (pageLabel_ne_empty s)
  · intro hall
    have hnil : pageAnalyses.filter (fun a => !(jsTruthyStr a.error)) = [] := by
      rw [List.filter_eq_nil_iff]
      intro a ha
      simp [hall a ha]
    unfold combinePageAnalyses
    simp [hnil]

/-- Witness for C7: one failed page plus one successful page produce the
joined narrative of the successful page only, which is non-empty. -/
theorem combinePageAnalyses_spec_witness :
    combinePageAnalyses
        [⟨1, "p1.png", none, some "timeout", false⟩,
         ⟨2, "p2.png", some "net profit 10000", none, true⟩] =
      joinSep "\n\n"
        (([⟨1, "p1.png", none, some "timeout", false⟩,
           (⟨2, "p2.png", some "net profit 10000", none, true⟩ : PageResult)].filter
            (fun a => !(jsTruthyStr a.error))).map pageLabel) ∧
    combinePageAnalyses
        [⟨1, "p1.png", none, some "timeout", false⟩,
         ⟨2, "p2.png", some "net profit 10000", none, true⟩] ≠ "" :=
  (combinePageAnalyses_spec
      [⟨1, "p1.png", none, some "timeout", false⟩,
       ⟨2, "p2.png", some "net profit 10000", none, true⟩]).1
    ⟨⟨2, "p2.png", some "net profit 10000", none, true⟩, by simp, rfl⟩

/-! ## Document Normalizer: encrypted PDF password probing (C6) -/

/-- The fixed ordered list of common passwords probed by
DocumentProcessor.handleEncryptedPDF. -/
def commonPasswords : List String := ["", "password", "123456", "admin", "user"]

/-- The path of the persisted decrypted copy. -/
def unencryptedPath (tempDir documentId : String) : String :=
  tempDir ++ "/" ++ documentId ++ "_unencrypted.pdf"

/-- The probing loop of handleEncryptedPDF over a password list: the
opens oracle models whether PDFDocument.load succeeds with a given
password. Returns the thrown or returned value together with the list
of passwords actually probed, in order. The save/write of the
decrypted copy is assumed to succeed (a write failure in the source is
caught by the same catch and treated as a probe failure). -/
def probePasswords (opens : String → Bool) (tempDir documentId : String) :
    List String → Except String String × List String
  | [] => (.error "Could not decrypt PDF - password protected", [])
  | p :: rest =>
    if opens p then (.ok (unencryptedPath tempDir documentId), [p])
    else
      let r := probePasswords opens tempDir documentId rest
      (r.1, p :: r.2)

/-- DocumentProcessor.handleEncryptedPDF: probe the fixed password list
in order. -/
def handleEncryptedPDF (opens : String → Bool) (tempDir documentId : String) :
    Except String String × List String :=
  probePasswords opens tempDir documentId commonPasswords

lemma probePasswords_all_fail (opens : String → Bool) (tempDir documentId : String) :
    ∀ l, (∀ p ∈ l, opens p = false) →
    probePasswords opens tempDir documentId l =
      (.error "Could not decrypt PDF - password protected", l) := by
  intro l h
  induction l with
  | nil => rfl
  | cons p rest ih =>
    have hp : opens p = false := h p (by simp)
    simp [probePasswords, hp, ih (fun q hq => h q (by simp [hq]))]

lemma probePasswords_first_success (opens : String → Bool) (tempDir documentId : String) :
    ∀ l₁ p l₂, (∀ q ∈ l₁, opens q = false) → opens p = true →
    probePasswords opens tempDir documentId (l₁ ++ p :: l₂) =
      (.ok (unencryptedPath tempDir documentId), l₁ ++ [p]) := by
  intro l₁
  induction l₁ with
  | nil =>
    intro p l₂ _ hp
    simp [probePasswords, hp]
  | cons q rest ih =>
    intro p l₂ hq hp
    have h1 : opens q = false := hq q (by simp)
    simp [probePasswords, h1, ih p l₂ (fun x hx => hq x (by simp [hx])) hp]

/-- Claim C6: password probing tries the fixed list in order; when
every password fails the result is the DecryptionFailure message after
probing the whole list, and when some password opens the document the
loop stops at the first such password, probing exactly the prefix up to
and including it and returning the path of the persisted decrypted copy. -/
theorem handleEncryptedPDF_probing (opens : String → Bool)
    (tempDir documentId : String) :
    ((∀ p ∈ commonPasswords, opens p = false) →
      handleEncryptedPDF opens tempDir documentId =
        (.error "Could not decrypt PDF - password protected", commonPasswords)) ∧
    (∀ l₁ p l₂, commonPasswords = l₁ ++ p :: l₂ →
      (∀ q ∈ l₁, opens q = false) → opens p = true →
      handleEncryptedPDF opens tempDir documentId =
        (.ok (unencryptedPath tempDir documentId), l₁ ++ [p])) := by
  constructor
  · intro h
    exact probePasswords_all_fail opens tempDir documentId commonPasswords h
  · intro l₁ p l₂ hsplit h1 hp
    rw [handleEncryptedPDF, hsplit]
    exact probePasswords_first_success opens tempDir documentId l₁ p l₂ h1 hp

/-- Witness for C6: a PDF encrypted with password admin succeeds on the
fourth probed password, after the first three fail, and probing stops
there. -/
theorem handleEncryptedPDF_probing_witness :
    handleEncryptedPDF (fun p => p == "admin") "/tmp" "doc1" =
      (.ok (unencryptedPath "/tmp" "doc1"), ["", "password", "123456", "admin"]) :=
  (handleEncryptedPDF_probing (fun p => p == "admin") "/tmp" "doc1").2
    ["", "password", "123456"] "admin" ["user"] rfl (by decide) (by decide)

/-! ## Progress Emitter and analyze request handler (C3, C9) -/

/-- One server-sent event of the analyze stream: a progress event, the
terminal result event, or the terminal error event (which the source
emits with progress 0). -/
inductive SEvent where
  | progress (step : String) (pct : ℚ) (message : String)
  | result (pct : ℚ)
  | error (pct : ℚ) (msg : String)
  deriving Repr, DecidableEq

/-- The progress percentage carried by an event. -/
def progressOf : SEvent → ℚ
  | .progress _ pct _ => pct
  | .result pct => pct
  | .error pct _ => pct

/-- The aspects of one entry of the files array that drive the
processing loop of the analyze handler: the original name, whether the
uploaded file is found on disk, and the outcome of
documentProcessor.processDocument. -/
structure FileSpec where
  originalName : String
  found : Bool
  processed : Except String Unit
  deriving Repr

/-- Whether an Except value is a success. -/
def exceptOk : Except String Unit → Bool
  | .ok _ => true
  | .error _ => false

/-- The files that reach processedDocuments: found on disk and
processed without error, in input order. -/
def processedNames (files : List FileSpec) : List String :=
  (files.filter (fun f => f.found && exceptOk f.processed)).map FileSpec.originalName

/-- The number of successfully processed documents. -/
def processedCount (files : List FileSpec) : ℕ :=
  (files.filter (fun f => f.found && exceptOk f.processed)).length

/-- The progress events emitted for one file of the processing loop:
fileIndex is 1-based, n is the file count; progressBase =
(fileIndex - 1) / n * 60. -/
def perFileEvents (n idx : ℕ) (f : FileSpec) : List SEvent :=
  let base : ℚ := ((idx : ℚ) - 1) / (n : ℚ) * 60
  SEvent.progress "processing" (base + 5) ("Processing " ++ f.originalName ++ "...") ::
  (if f.found = false then
    [SEvent.progress "processing" (base + 60 / (n : ℚ))
      ("File not found: " ++ f.originalName)]
  else match f.processed with
    | .ok _ => [SEvent.progress "processing" (base + 60 / (n : ℚ))
        ("Completed processing " ++ f.originalName)]
    | .error m => [SEvent.progress "processing" (base + 60 / (n : ℚ))
        ("Error processing " ++ f.originalName ++ ": " ++ m)])

/-- The events of the whole processing loop, starting at 1-based index
idx. -/
def fileEvents (n : ℕ) : ℕ → List FileSpec → List SEvent
  | _, [] => []
  | idx, f :: rest => perFileEvents n idx f ++ fileEvents n (idx + 1) rest

/-- The per-document extraction events of
CreditAnalyzer.analyzeDocuments: progressBase = 80 + (docIdx / n) * 15
with docIdx 1-based. -/
def docEvents (n : ℕ) : ℕ → List String → List SEvent
  | _, [] => []
  | idx, name :: rest =>
    SEvent.progress "analysis" (80 + ((idx : ℚ) / (n : ℚ)) * 15)
      ("Analyzing " ++ name ++ "...") ::
    docEvents n (idx + 1) rest

/-- The model-availability and model-pull aspects of the analysis
stage: isModelAvailable swallows errors into a boolean; pull is the
outcome of pullModel, whose thrown message is already of the form
produced by its own catch. -/
structure AnalysisEnv where
  modelAvailable : Bool
  pull : Except String Unit
  deriving Repr

/-- The error-event message thrown by checkConnection when the backend
is unreachable. -/
def connectionErrorMsg (baseUrl : String) : String :=
  "Cannot connect to Ollama at " ++ baseUrl ++
  ". Please ensure Ollama is running and accessible."

/-- The terminal-error message when zero documents were processed. -/
def noDocsMsg : String := "No documents could be processed successfully"

/-- The events and terminal of the analysis stage
(CreditAnalyzer.analyzeDocuments followed by the completion
events): a model-pull failure is rethrown wrapped by the analyzeDocuments
catch and becomes the terminal error event; otherwise extraction
proceeds per document and the stream ends with the result event. The
final generateCreditAnalysis call never throws (it falls back), so it
produces no failure here. -/
def analysisPhase (env : AnalysisEnv) (docNames : List String) : List SEvent × SEvent :=
  let pre := if env.modelAvailable then []
    else [SEvent.progress "analysis" 75 "Downloading AI model (this may take a few minutes)..."]
  match (if env.modelAvailable then Except.ok () else env.pull) with
  | .error m => (pre, SEvent.error 0 ("Failed to complete credit analysis: " ++ m))
  | .ok _ =>
    (pre ++ SEvent.progress "analysis" 80 "Extracting financial data from documents..." ::
      (docEvents docNames.length 1 docNames ++
       [SEvent.progress "analysis" 95 "Generating credit recommendation...",
        SEvent.progress "complete" 100 "Analysis complete!"]),
     SEvent.result 100)

/-- The analyze request handler: the non-terminal events and the single
terminal event of one request, following the emission order of the source:
initialization at 5, connectivity gate, processing start at 10, the
per-file loop, the zero-processed check, analysis at 70, the analysis
stage. -/
def analyzeHandler (connected : Bool) (baseUrl : String) (files : List FileSpec)
    (env : AnalysisEnv) : List SEvent × SEvent :=
  let init := SEvent.progress "initialization" 5 "Checking AI service connection..."
  if connected = false then
    ([init], SEvent.error 0 (connectionErrorMsg baseUrl))
  else
    let head := init ::
      SEvent.progress "processing" 10 "Starting document processing..." ::
      fileEvents files.length 1 files
    if processedCount files = 0 then
      (head, SEvent.error 0 noDocsMsg)
    else
      let phase := analysisPhase env (processedNames files)
      (head ++ SEvent.progress "analysis" 70 "Analyzing documents with AI..." :: phase.1,
       phase.2)

/-- The full event stream of one request: every stream ends with
exactly one terminal event. -/
def analyzeStream (connected : Bool) (baseUrl : String) (files : List FileSpec)
    (env : AnalysisEnv) : List SEvent :=
  (analyzeHandler connected baseUrl files env).1 ++
    [(analyzeHandler connected baseUrl files env).2]

lemma connectionErrorMsg_ne_noDocsMsg (u : String) :
    connectionErrorMsg u ≠ noDocsMsg := by
  intro h
  have h2 : (connectionErrorMsg u).data.head? = noDocsMsg.data.head? := by rw [h]
  have h3 : (connectionErrorMsg u).data.head? = some 'C' := by
    unfold connectionErrorMsg
    rw [String.data_append, String.data_append]
    rfl
  have h4 : noDocsMsg.data.head? = some 'N' := rfl
  rw [h3, h4] at h2
  exact absurd h2 (by decide)

lemma failWrap_ne_noDocsMsg (m : String) :
    "Failed to complete credit analysis: " ++ m ≠ noDocsMsg := by
  intro h
  have h2 : ("Failed to complete credit analysis: " ++ m).data.head? =
      noDocsMsg.data.head? := by rw [h]
  have h3 : ("Failed to complete credit analysis: " ++ m).data.head? = some 'F' := by
    rw [String.data_append]
    rfl
  have h4 : noDocsMsg.data.head? = some 'N' := rfl
  rw [h3, h4] at h2
  exact absurd h2 (by decide)

/-- Claim C9 as amended: the stream terminates with the
no-documents-processed error exactly when the connectivity check
succeeded and zero documents were processed successfully; when at least
one document was processed the pipeline proceeds to the analysis stage
instead of that error (though the stream may still terminate with a
different, aggregation-stage error such as a model-install failure). -/
theorem noDocs_error_iff (connected : Bool) (baseUrl : String)
    (files : List FileSpec) (env : AnalysisEnv) :
    ((analyzeStream connected baseUrl files env).getLast? =
        some (SEvent.error 0 noDocsMsg) ↔
      connected = true ∧ processedCount files = 0) ∧
    (connected = true → 1 ≤ processedCount files →
      SEvent.progress "analysis" 70 "Analyzing documents with AI..." ∈
        analyzeStream connected baseUrl files env) := by
  have hterm : (analyzeStream connected baseUrl files env).getLast? =
      some ((analyzeHandler connected baseUrl files env).2) :=
    List.getLast?_concat _
  constructor
  · rw [hterm]
    cases connected with
    | false =>
      have h2 : (analyzeHandler false baseUrl files env).2 =
          SEvent.error 0 (connectionErrorMsg baseUrl) := rfl
      rw [h2]
      simp [connectionErrorMsg_ne_noDocsMsg baseUrl]
    | true =>
      by_cases hp : processedCount files = 0
      · have h2 : (analyzeHandler true baseUrl files env).2 =
            SEvent.error 0 noDocsMsg := by
          simp [analyzeHandler, hp]
        rw [h2]
        simp [hp]
      · have h2 : (analyzeHandler true baseUrl files env).2 =
            (analysisPhase env (processedNames files)).2 := by
          simp [analyzeHandler, hp]
        rw [h2]
        unfold analysisPhase
        cases hma : env.modelAvailable with
        | true => simp [hp]
        | false =>
          cases hpull : env.pull with
          | ok u => simp [hp]
          | error m => simp [hp, failWrap_ne_noDocsMsg m]
  · intro hc hcount
    subst hc
    have hp : ¬ processedCount files = 0 := by omega
    simp [analyzeStream, analyzeHandler, hp]

/-- One found and successfully processed file. -/
def oneGoodFile : List FileSpec := [⟨"report.pdf", true, .ok ()⟩]

/-- A healthy analysis environment: model available. -/
def healthyEnv : AnalysisEnv := ⟨true, .ok ()⟩

/-- Witness for the amended C9: with one successfully processed file
the stream reaches the analysis stage. -/
theorem noDocs_error_iff_witness :
    SEvent.progress "analysis" 70 "Analyzing documents with AI..." ∈
      analyzeStream true "http://localhost:11434" oneGoodFile healthyEnv :=
  (noDocs_error_iff true "http://localhost:11434" oneGoodFile healthyEnv).2
    rfl (by decide)

/-- An environment where the model is missing and pullModel fails. -/
def pullFailEnv : AnalysisEnv :=
  ⟨false, .error "Failed to pull model qwen2.5vl:7b: pull stream error"⟩

/-- Counterexample to C9 as stated: with one successfully processed
document but a failing model pull, the batch still fails outright (the
stream terminates with an error event), contradicting that the batch
fails outright only when zero documents were processed successfully;
the terminal message is the aggregation-stage one, not the no-documents
message. -/
theorem batch_error_with_processed_doc :
    processedCount oneGoodFile = 1 ∧
    (analyzeStream true "http://localhost:11434" oneGoodFile pullFailEnv).getLast? =
      some (SEvent.error 0
        "Failed to complete credit analysis: Failed to pull model qwen2.5vl:7b: pull stream error") ∧
    "Failed to complete credit analysis: Failed to pull model qwen2.5vl:7b: pull stream error" ≠
      noDocsMsg := by
  refine ⟨by decide, ?_, by decide⟩
  rw [analyzeStream, List.getLast?_concat]
  rfl

/-- Claim C3 as evidence of the code bug: on a healthy request with one
file, the emitted progress percentages are 5, 10, 5, 60, 70, 80, 95,
95, 100, 100 — the third event (the first per-file event, at
progressBase + 5 = 5) drops below the preceding 10, so the sequence is
not non-decreasing. -/
theorem progress_not_monotone :
    (analyzeStream true "http://localhost:11434" oneGoodFile healthyEnv).map progressOf =
      [5, 10, 5, 60, 70, 80, 95, 95, 100, 100] ∧
    ¬ List.Chain' (· ≤ ·)
      ((analyzeStream true "http://localhost:11434" oneGoodFile healthyEnv).map progressOf) := by
  have hmap : (analyzeStream true "http://localhost:11434" oneGoodFile healthyEnv).map
      progressOf = [5, 10, 5, 60, 70, 80, 95, 95, 100, 100] := by
    simp only [analyzeStream, analyzeHandler, oneGoodFile, healthyEnv, fileEvents,
      perFileEvents, docEvents, analysisPhase, processedNames, processedCount, exceptOk,
      progressOf]
    norm_num [progressOf]
  refine ⟨hmap, ?_⟩
  rw [hmap]
  intro h
  rw [List.chain'_cons, List.chain'_cons] at h
  have h2 : (10 : ℚ) ≤ 5 := h.2.1
  norm_num at h2

end CreditPipeline
